import Mathlib

/-!
# PetalFlow — verification of the numerical core

Shallow embedding of the PetalFlow C library (github.com/F33RNI/PetalFlow).
Machine integers (`uint32_t`, `uint64_t`) are modelled as `Nat` with explicit
`% 2^32` masking where C arithmetic wraps; `float` values are modelled as exact
rationals (`ℚ`), with the opaque libm routines (`sqrtf`, `logf`) passed as
explicit function parameters so that every definition stays computable.
C functions that mutate a struct in place are modelled as functions returning
the updated record (paired with the C return code where the source returns one).
-/

namespace PetalFlow

/-! ## Error codes (include/errors.h) -/

def ERROR_NONE : Nat := 0
def ERROR_MALLOC : Nat := 1
def ERROR_PETAL_WRONG_TYPE : Nat := 2
def ERROR_BITMAP_ACCESS_OUT_OF_BOUNDS : Nat := 10
def ERROR_OPTIMIZER_WRONG_TYPE : Nat := 11
def ERROR_LOSS_WRONG_TYPE : Nat := 13
def ERROR_WRONG_BATCH_SIZE : Nat := 14
def ERROR_LOSS_NO_TEMP : Nat := 9

/-! ## PRNG (src/random.c, include/random.h)

Knuth / Mersenne-Twister generator.  `key` holds the 624 32-bit state words,
`pos` the read cursor.  All arithmetic is on `Nat` reduced mod `2^32` exactly
where the C source masks with `0xffffffffUL` or relies on `uint32_t` wrap.
-/

def RK_STATE_LEN : Nat := 624
def MT_N : Nat := 624
def MT_M : Nat := 397
def MATRIX_A : Nat := 0x9908b0df
def UPPER_MASK : Nat := 0x80000000
def LOWER_MASK : Nat := 0x7fffffff

structure RkState where
  key : List Nat
  pos : Nat
deriving Repr, DecidableEq

/-- Seeding loop of `rk_seed`: `key[i] = seed;
seed = (1812433253 * (seed ^ (seed >> 30)) + i + 1) & 0xffffffff`. -/
def rkSeedAux : Nat → Nat → Nat → List Nat
  | _, _, 0 => []
  | s, i, n + 1 => s :: rkSeedAux ((1812433253 * (s ^^^ (s >>> 30)) + i + 1) % 2 ^ 32) (i + 1) n

/-- `rk_seed`: fill the 624-word key from a 32-bit seed and set `pos = RK_STATE_LEN`. -/
def rkSeed (seed : Nat) : RkState :=
  { key := rkSeedAux (seed % 2 ^ 32) 0 RK_STATE_LEN, pos := RK_STATE_LEN }

/-- `(key[i] & UPPER_MASK) | (key[i+1] & LOWER_MASK)` from the regeneration loops. -/
def mtMix (cur next : Nat) : Nat :=
  (cur &&& UPPER_MASK) ||| (next &&& LOWER_MASK)

/-- `(y >> 1) ^ (-(y & 1) & MATRIX_A)`: in `uint32_t` arithmetic `-(y & 1)` is
`0xffffffff` when `y` is odd and `0` otherwise, so the term is `MATRIX_A` for odd
`y` and `0` for even `y`. -/
def mtTwist (y : Nat) : Nat :=
  (y >>> 1) ^^^ (if y % 2 = 1 then MATRIX_A else 0)

/-- First regeneration loop of `rk_random` (`i` from `0` to `N-M-1`):
`key[i] = key[i+M] ^ twist(mix(key[i], key[i+1]))`, applied sequentially. -/
def mtLoopA : List Nat → Nat → Nat → List Nat
  | key, _, 0 => key
  | key, i, n + 1 =>
    let y := mtMix (key.getD i 0) (key.getD (i + 1) 0)
    mtLoopA (key.set i ((key.getD (i + MT_M) 0) ^^^ mtTwist y)) (i + 1) n

/-- Second regeneration loop of `rk_random` (`i` from `N-M` to `N-2`):
`key[i] = key[i+M-N] ^ twist(mix(key[i], key[i+1]))`, applied sequentially. -/
def mtLoopB : List Nat → Nat → Nat → List Nat
  | key, _, 0 => key
  | key, i, n + 1 =>
    let y := mtMix (key.getD i 0) (key.getD (i + 1) 0)
    mtLoopB (key.set i ((key.getD (i + MT_M - MT_N) 0) ^^^ mtTwist y)) (i + 1) n

/-- Full key regeneration pass of `rk_random`, including the final
`key[N-1] = key[M-1] ^ twist(mix(key[N-1], key[0]))` step. -/
def mtRegenerate (key : List Nat) : List Nat :=
  let k1 := mtLoopA key 0 (MT_N - MT_M)
  let k2 := mtLoopB k1 (MT_N - MT_M) (MT_M - 1)
  let y := mtMix (k2.getD (MT_N - 1) 0) (k2.getD 0 0)
  k2.set (MT_N - 1) ((k2.getD (MT_M - 1) 0) ^^^ mtTwist y)

/-- Tempering stage of `rk_random`.  The two left shifts are masked by constants
below `2^32`, so the `&&&` already performs the 32-bit truncation. -/
def mtTemper (y0 : Nat) : Nat :=
  let y1 := y0 ^^^ (y0 >>> 11)
  let y2 := y1 ^^^ ((y1 <<< 7) &&& 0x9d2c5680)
  let y3 := y2 ^^^ ((y2 <<< 15) &&& 0xefc60000)
  y3 ^^^ (y3 >>> 18)

/-- `rk_random`: regenerate the key when the cursor is exhausted, then read and
temper the next word. -/
def rkRandom (st : RkState) : Nat × RkState :=
  let st := if st.pos = RK_STATE_LEN then { key := mtRegenerate st.key, pos := 0 } else st
  (mtTemper (st.key.getD st.pos 0), { key := st.key, pos := st.pos + 1 })

/-- First `n` outputs of `rk_random` from a given state. -/
def rkDraws (st : RkState) : Nat → List Nat
  | 0 => []
  | n + 1 =>
    let p := rkRandom st
    p.1 :: rkDraws p.2 n

/-- State after `n` draws of `rk_random`. -/
def rkStateAfter (st : RkState) : Nat → RkState
  | 0 => st
  | n + 1 => rkStateAfter (rkRandom st).2 n

/-- The infinite output stream of the generator seeded with `seed`
(models the sequence of `rk_random_()` calls after `rk_seed_(seed)`). -/
def rkStreamOf (seed : Nat) : Nat → Nat :=
  fun n => (rkRandom (rkStateAfter (rkSeed seed) n)).1

/-! ## Bit array (src/bit_array.c, include/bit_array.h)

`BIT_ARRAY_TYPE` is `uint8_t` and `BIT_ARRAY_BITS` is 8; `data` holds
`⌈length/8⌉` words, each a `Nat` below 256.  The out-of-bounds error latch on
`bit_array_get_bit` only fires on indices the callers below never produce, so
`get` is modelled as the pure `Bool` read. -/

def BIT_ARRAY_BITS : Nat := 8

structure BitArray where
  data : List Nat
  length : Nat
  error_code : Nat
deriving Repr, DecidableEq

/-- `bit_array_init`: `⌈size_bits/8⌉` zero words. -/
def bit_array_init (size_bits : Nat) : BitArray :=
  { data := List.replicate ((size_bits + (BIT_ARRAY_BITS - 1)) / BIT_ARRAY_BITS) 0
    length := size_bits
    error_code := ERROR_NONE }

/-- `bit_array_set_bit`: `data[i/8] |= 1 << i%8`, latching the out-of-bounds
error code for `index >= length`. -/
def bit_array_set_bit (ba : BitArray) (index : Nat) : BitArray :=
  if ba.length ≤ index then { ba with error_code := ERROR_BITMAP_ACCESS_OUT_OF_BOUNDS }
  else { ba with
    data := ba.data.set (index / BIT_ARRAY_BITS)
      ((ba.data.getD (index / BIT_ARRAY_BITS) 0) ||| (1 <<< (index % BIT_ARRAY_BITS))) }

/-- `bit_array_get_bit`: `(data[i/8] >> i%8) & 1 != 0`, `false` out of bounds. -/
def bit_array_get_bit (ba : BitArray) (index : Nat) : Bool :=
  if ba.length ≤ index then false
  else ((ba.data.getD (index / BIT_ARRAY_BITS) 0) >>> (index % BIT_ARRAY_BITS)) &&& 1 ≠ 0

/-- `bit_array_not`: invert every word.  On a `uint8_t` word `w < 256` the C
expression `~w` (promoted to `int`, truncated back) equals `w ^^^ 255`; bits of
the last word beyond `length` become 1, exactly as in the source. -/
def bit_array_not (ba : BitArray) : BitArray :=
  { ba with data := ba.data.map (fun w => w ^^^ 255) }

/-- `bit_array_clear`: every word becomes 0 (the `memset` zeroes the whole
backing store). -/
def bit_array_clear (ba : BitArray) : BitArray :=
  { ba with data := ba.data.map (fun _ => 0) }

/-- Number of mask bits set among indices `0 .. length-1`. -/
def countSetBits (ba : BitArray) : Nat :=
  ((Finset.range ba.length).filter (fun i => bit_array_get_bit ba i = true)).card

/-- Shape invariant of a bit array: the backing store holds `⌈length/8⌉` words,
each below 256. -/
def BitArrayWF (ba : BitArray) : Prop :=
  ba.data.length = (ba.length + (BIT_ARRAY_BITS - 1)) / BIT_ARRAY_BITS ∧
    ∀ w ∈ ba.data, w < 256

/-! ## Dropout sampling (src/dropout.c)

`dropout_generate_indices` draws from the global PRNG; the embedding receives
the stream of successive `rk_random_()` outputs as `rng : Nat → Nat` together
with a fuel bound for the rejection loop (`none` = the loop did not finish
within `fuel` draws).  The float products `(float)length * ratio` are modelled
as exact rational products truncated with `Int.toNat ∘ Int.floor`. -/

/-- Drop/keep count of `dropout_generate_indices`: `⌊L·r⌋` to drop when
`0 ≤ r ≤ 1/2`, else `L − ⌊L·r⌋` to keep when `1/2 ≤ r ≤ 1`, else 0. -/
def dropout_indices_count (L : Nat) (r : ℚ) : Nat :=
  if 0 ≤ r ∧ r ≤ 1 / 2 then (⌊(L : ℚ) * r⌋).toNat
  else if r ≤ 1 ∧ 1 / 2 ≤ r then L - (⌊(L : ℚ) * r⌋).toNat
  else 0

/-- The `while (set_counter < k)` rejection loop: draw `rng t % length`,
skip if that bit is already set, otherwise set it and count it. -/
def dropoutSampleLoop (rng : Nat → Nat) (k : Nat) :
    Nat → Nat → Nat → BitArray → Option BitArray
  | 0, _, counter, ba => if counter < k then none else some ba
  | fuel + 1, t, counter, ba =>
    if counter < k then
      let index_to_set := rng t % ba.length
      if bit_array_get_bit ba index_to_set then
        dropoutSampleLoop rng k fuel (t + 1) counter ba
      else
        dropoutSampleLoop rng k fuel (t + 1) (counter + 1) (bit_array_set_bit ba index_to_set)
    else some ba

/-- `dropout_generate_indices`: compute the drop-or-keep count, reject it if it
exceeds the mask length, set every bit when it equals the length and run the
rejection loop otherwise, then invert the mask when `1/2 ≤ r ≤ 1`. -/
def dropout_generate_indices (rng : Nat → Nat) (fuel : Nat) (ba : BitArray) (r : ℚ) :
    Option BitArray :=
  let k := dropout_indices_count ba.length r
  if ba.length < k then some { ba with error_code := ERROR_BITMAP_ACCESS_OUT_OF_BOUNDS }
  else
    let sampled :=
      if k = ba.length then some ((List.range ba.length).foldl bit_array_set_bit ba)
      else dropoutSampleLoop rng k fuel 0 0 ba
    if r ≤ 1 ∧ 1 / 2 ≤ r then sampled.map bit_array_not else sampled

/-! ## Dense-1D forward kernel (src/forward.c, `petal_forward`, dense branch)

The dense branch of `petal_forward` (lines 153–181): for every output index the
output entry is reset to 0 and, unless dropout is enabled and the mask bit for
that index is set, accumulates either the weighted dot product (weights present)
or the plain input sum (weights absent), then adds the bias entry when bias
weights are present.  Weight/bias/input tensors are modelled as total functions
`Nat → ℚ` (C arrays of sufficient length); the accumulation is the same
sequential left fold the C loop performs. -/

/-- Inner accumulation loop with weights:
`output[j] += weights[input_row + i] * input[i]` for `i < inLen`. -/
def dense1dDot (w input : Nat → ℚ) (input_row inLen : Nat) : ℚ :=
  (List.range inLen).foldl (fun acc i => acc + w (input_row + i) * input i) 0

/-- Inner accumulation loop without weights: `output[j] += input[i]`. -/
def dense1dSum (input : Nat → ℚ) (inLen : Nat) : ℚ :=
  (List.range inLen).foldl (fun acc i => acc + input i) 0

/-- Dense branch of `petal_forward`, one output entry: the value the loop body
leaves at `output[j]`. -/
def petal_forward_dense1d (inLen : Nat) (w bias : Option (Nat → ℚ)) (input : Nat → ℚ)
    (dropout_enabled : Bool) (mask : BitArray) (j : Nat) : ℚ :=
  if dropout_enabled && bit_array_get_bit mask j then 0
  else
    (match w with
     | some wf => dense1dDot wf input (j * inLen) inLen
     | none => dense1dSum input inLen) +
    (match bias with
     | some bf => bf j
     | none => 0)

/-- Dense branch of `petal_forward`: the whole output buffer
(`outLen` entries). -/
def petal_forward_dense1d_out (inLen outLen : Nat) (w bias : Option (Nat → ℚ))
    (input : Nat → ℚ) (dropout_enabled : Bool) (mask : BitArray) : List ℚ :=
  (List.range outLen).map (petal_forward_dense1d inLen w bias input dropout_enabled mask)

/-! ## Weights update (src/weights.c, `weights_update`) and init

`EPSILON` is the header constant `1e-15f`, modelled as the exact rational.
`sqrtf` is an opaque libm routine, passed as the parameter `sqrtq`.  The C
function mutates the struct and returns an error code; the embedding returns
the pair (code, struct).  The lazily `calloc`-ed optimizer buffers
(`velocities_or_cache`, and `moments` for Adam) are materialised to their
zero-filled contents exactly where the source allocates them. -/

def EPSILON : ℚ := 1 / 10 ^ 15

def OPTIMIZER_SGD_MOMENTUM : Nat := 0
def OPTIMIZER_RMS_PROP : Nat := 1
def OPTIMIZER_ADA_GRAD : Nat := 2
def OPTIMIZER_ADAM : Nat := 3
def OPTIMIZER_MAX : Nat := OPTIMIZER_ADAM

structure WeightsQ where
  trainable : Bool
  length_total : Nat
  weights : List ℚ
  gradients : List ℚ
  moments : Option (List ℚ)
  velocities_or_cache : Option (List ℚ)
  learning_step : Nat

structure OptimizerQ where
  type : Nat
  learning_rate : ℚ
  momentum : ℚ
  beta_1 : ℚ
  beta_2 : ℚ

/-- `weights_update`.  Per-element formulas are written as maps over
`List.range length_total`; the only cross-iteration state in the C loops is the
Adam branch incrementing `_learning_step` once per element, so element `i` of
the Adam branch reads `_learning_step = t₀ + i` and the call leaves
`t₀ + length_total` behind. -/
def weights_update (sqrtq : ℚ → ℚ) (w : WeightsQ) (opt : OptimizerQ) : Nat × WeightsQ :=
  if ¬ w.trainable then (ERROR_NONE, w)
  else
    let n := w.length_total
    let vList := w.velocities_or_cache.getD (List.replicate n 0)
    let v := fun i => vList.getD i 0
    let m := fun i => (w.moments.getD (List.replicate n 0)).getD i 0
    let g := fun i => w.gradients.getD i 0
    let wt := fun i => w.weights.getD i 0
    if opt.type = OPTIMIZER_SGD_MOMENTUM then
      if 0 < opt.momentum then
        let vNew := fun i => opt.momentum * v i - opt.learning_rate * g i
        (ERROR_NONE, { w with
          weights := (List.range n).map (fun i => wt i + vNew i)
          velocities_or_cache := some ((List.range n).map vNew)
          gradients := List.replicate n 0 })
      else
        (ERROR_NONE, { w with
          weights := (List.range n).map (fun i => wt i - opt.learning_rate * g i)
          velocities_or_cache := some vList
          gradients := List.replicate n 0 })
    else if opt.type = OPTIMIZER_RMS_PROP then
      let vNew := fun i => opt.beta_1 * v i + (1 - opt.beta_1) * g i * g i
      (ERROR_NONE, { w with
        weights := (List.range n).map
          (fun i => wt i - (opt.learning_rate / (sqrtq (vNew i) + EPSILON)) * g i)
        velocities_or_cache := some ((List.range n).map vNew)
        gradients := List.replicate n 0 })
    else if opt.type = OPTIMIZER_ADA_GRAD then
      let vNew := fun i => v i + g i * g i
      (ERROR_NONE, { w with
        weights := (List.range n).map
          (fun i => wt i - opt.learning_rate * g i / (sqrtq (vNew i) + EPSILON))
        velocities_or_cache := some ((List.range n).map vNew)
        gradients := List.replicate n 0 })
    else if opt.type = OPTIMIZER_ADAM then
      let mNew := fun i => opt.beta_1 * m i + (1 - opt.beta_1) * g i
      let vNew := fun i => opt.beta_2 * v i + (1 - opt.beta_2) * g i * g i
      let mHat := fun i => mNew i / (1 - opt.beta_1 ^ (w.learning_step + i + 1))
      let vHat := fun i => vNew i / (1 - opt.beta_2 ^ (w.learning_step + i + 1))
      (ERROR_NONE, { w with
        weights := (List.range n).map
          (fun i => wt i - opt.learning_rate * mHat i / (sqrtq (vHat i) + EPSILON))
        moments := some ((List.range n).map mNew)
        velocities_or_cache := some ((List.range n).map vNew)
        gradients := List.replicate n 0
        learning_step := w.learning_step + n })
    else
      (ERROR_OPTIMIZER_WRONG_TYPE, { w with velocities_or_cache := some vList })

/-- `RAND_MAX` of the C library on the build platforms the repository targets. -/
def C_RAND_MAX : Nat := 2147483647

/-- `WEIGHTS_INIT_RANDOM_UNIFORM` branch of `weights_init` (src/weights.c lines
103–107): element `i` is `((float)rand() / RAND_MAX) * 2 * deviation + center -
deviation`, consuming one draw of the C library `rand()` stream per element.
The `rand()` stream is the parameter `randStream` (the §4.1 PRNG does not
appear: `weights_init` never calls `rk_random`). -/
def weights_init_uniform (randStream : Nat → Nat) (n : Nat) (center deviation : ℚ) : List ℚ :=
  (List.range n).map
    (fun i => ((randStream i : ℚ) / (C_RAND_MAX : ℚ)) * 2 * deviation + center - deviation)

/-- One coordinate draw of the Gaussian branch:
`((float)rand() / RAND_MAX) * 2 - 1`, taken from stream position `t`. -/
def gaussDraw (randStream : Nat → Nat) (t : Nat) : ℚ :=
  ((randStream t : ℚ) / (C_RAND_MAX : ℚ)) * 2 - 1

/-- The `do { … } while (rsq >= 1.f || rsq == 0.f)` rejection loop of the
`WEIGHTS_INIT_RANDOM_GAUSSIAN` branch (weights.c lines 113–118): draw a pair
`(x, y)` from the `rand()` stream until `rsq = x² + y²` lies in the open unit
disk minus the origin; returns the accepted pair and the next stream position,
or `none` when `fuel` attempts were rejected. -/
def gaussRejectLoop (randStream : Nat → Nat) : Nat → Nat → Option (ℚ × ℚ × Nat)
  | 0, _ => none
  | fuel + 1, t =>
    let x := gaussDraw randStream t
    let y := gaussDraw randStream (t + 1)
    let rsq := x * x + y * y
    if 1 ≤ rsq ∨ rsq = 0 then gaussRejectLoop randStream fuel (t + 2)
    else some (x, y, t + 2)

/-- The Marsaglia scale factor `f = sqrtf(-2 * logf(rsq) / rsq)` of the
Gaussian branch (weights.c line 120); `sqrtf`/`logf` are the opaque libm
routines `sqrtq`/`logq`. -/
def gaussFactor (sqrtq logq : ℚ → ℚ) (rsq : ℚ) : ℚ :=
  sqrtq (-2 * logq rsq / rsq)

/-- Outer loop of the `WEIGHTS_INIT_RANDOM_GAUSSIAN` branch
(weights.c lines 111–126), on the remaining element count: each accepted pair
fills `weights[i] = x·f·deviation + center` and — unless `i` is the last index
of an odd-length tensor — `weights[i+1] = y·f·deviation + center`. -/
def weights_init_gaussian_aux (sqrtq logq : ℚ → ℚ) (rs : Nat → Nat) (c d : ℚ)
    (fuel : Nat) : Nat → Nat → Option (List ℚ)
  | _, 0 => some []
  | t, 1 =>
    match gaussRejectLoop rs fuel t with
    | none => none
    | some (x, y, _) => some [x * gaussFactor sqrtq logq (x * x + y * y) * d + c]
  | t, rem + 2 =>
    match gaussRejectLoop rs fuel t with
    | none => none
    | some (x, y, t2) =>
      match weights_init_gaussian_aux sqrtq logq rs c d fuel t2 rem with
      | none => none
      | some rest =>
        some ((x * gaussFactor sqrtq logq (x * x + y * y) * d + c)
          :: (y * gaussFactor sqrtq logq (x * x + y * y) * d + c) :: rest)

/-- `WEIGHTS_INIT_RANDOM_GAUSSIAN` branch of `weights_init` (weights.c lines
110–127): like the uniform branch it consumes the C library `rand()` stream —
the §4.1 PRNG does not appear. -/
def weights_init_gaussian (sqrtq logq : ℚ → ℚ) (rs : Nat → Nat) (fuel n : Nat)
    (c d : ℚ) : Option (List ℚ) :=
  weights_init_gaussian_aux sqrtq logq rs c d fuel 0 n

/-! ## Petal buffers (src/petal.c, `petal_init`) and dense backward writes
(src/backward.c, `petal_backward`) -/

/-- Buffer sizes allocated by `petal_init` once the shape checks passed:
`output` gets `outLen²` floats under softmax and `outLen` otherwise, and
`error_on_input` gets `outLen` floats unless the petal is first (lines
174–183 allocate `calloc(output_shape->length, …)`). -/
structure PetalBuffers where
  outputLen : Nat
  errorOnInputLen : Option Nat
deriving Repr, DecidableEq

def petal_init_buffers (first : Bool) (outLen : Nat) (softmax : Bool) : PetalBuffers :=
  { outputLen := if softmax then outLen * outLen else outLen
    errorOnInputLen := if first then none else some outLen }

/-- Indices of `error_on_input` written by the dense branch of `petal_backward`
when the petal is not first: the loop over `grad_left_i` covers the whole input
length. -/
def petal_backward_dense_error_writes (inLen : Nat) : List Nat :=
  List.range inLen

/-! ## Loss functions (src/loss.c, include/loss.h)

`logf` and `sqrtf` are opaque libm routines, passed as parameters `logq` and
`sqrtq`; `fabsf` is exact on rationals.  The `malloc`-ed scratch buffers hold
unspecified values until a branch writes them; the embedding materialises fresh
allocations as zero lists (no branch below ever reads an entry it did not
write, so the stand-in value is unobservable). -/

def LOSS_MEAN_SQUARED_ERROR : Nat := 0
def LOSS_MEAN_SQUARED_LOG_ERROR : Nat := 1
def LOSS_ROOT_MEAN_SQUARED_LOG_ERROR : Nat := 2
def LOSS_MEAN_ABS_ERROR : Nat := 3
def LOSS_BINARY_CROSSENTROPY : Nat := 4
def LOSS_CATEGORICAL_CROSSENTROPY : Nat := 5
def LOSS_MAX : Nat := LOSS_CATEGORICAL_CROSSENTROPY

structure LossState where
  type : Nat
  loss : Option (List ℚ)
  temp1 : Option (List ℚ)
  temp2 : Option (List ℚ)

/-- `loss_forward`: allocate and zero the loss buffer, allocate the scratch
buffers, then per kind fill the scratch buffers and write the scalar loss into
`loss[0]`; unknown kinds fall through every branch and still return
`ERROR_NONE`. -/
def loss_forward (logq sqrtq : ℚ → ℚ) (st : LossState) (predicted expected : List ℚ)
    (length : Nat) : Nat × LossState :=
  let p := fun i => predicted.getD i 0
  let e := fun i => expected.getD i 0
  let zeros := List.replicate length (0 : ℚ)
  let t1 := st.temp1.getD zeros
  let t2 := st.temp2.getD zeros
  if st.type = LOSS_MEAN_SQUARED_ERROR then
    let d := fun i => e i - p i
    let lossSum := (List.range length).foldl (fun acc i => acc + d i * d i) 0
    (ERROR_NONE, { st with
      loss := some (zeros.set 0 (lossSum / (length : ℚ)))
      temp1 := some ((List.range length).map d), temp2 := some t2 })
  else if st.type = LOSS_MEAN_SQUARED_LOG_ERROR then
    let d1 := fun i => p i + 1
    let d2 := fun i => logq (e i + 1) - logq (p i + 1)
    let lossSum := (List.range length).foldl (fun acc i => acc + d2 i * d2 i) 0
    (ERROR_NONE, { st with
      loss := some (zeros.set 0 (lossSum / (length : ℚ)))
      temp1 := some ((List.range length).map d1), temp2 := some ((List.range length).map d2) })
  else if st.type = LOSS_ROOT_MEAN_SQUARED_LOG_ERROR then
    let d1 := fun i => p i + 1
    let d2 := fun i => logq (e i + 1) - logq (p i + 1)
    let lossSum := (List.range length).foldl (fun acc i => acc + d2 i * d2 i) 0
    (ERROR_NONE, { st with
      loss := some (zeros.set 0 (sqrtq (lossSum / (length : ℚ))))
      temp1 := some ((List.range length).map d1), temp2 := some ((List.range length).map d2) })
  else if st.type = LOSS_MEAN_ABS_ERROR then
    let d1 := fun i => e i - p i
    let d2 := fun i => |d1 i|
    let lossSum := (List.range length).foldl (fun acc i => acc + d2 i) 0
    (ERROR_NONE, { st with
      loss := some (zeros.set 0 (lossSum / (length : ℚ)))
      temp1 := some ((List.range length).map d1), temp2 := some ((List.range length).map d2) })
  else if st.type = LOSS_BINARY_CROSSENTROPY then
    let lossSum := (List.range length).foldl
      (fun acc i => acc - (e i * logq (p i + EPSILON) + (1 - e i) * logq (1 - p i + EPSILON))) 0
    (ERROR_NONE, { st with
      loss := some (zeros.set 0 (lossSum / (length : ℚ)))
      temp1 := some ((List.range length).map p), temp2 := some ((List.range length).map e) })
  else if st.type = LOSS_CATEGORICAL_CROSSENTROPY then
    let lossSum := (List.range length).foldl (fun acc i => acc - e i * logq (p i + EPSILON)) 0
    (ERROR_NONE, { st with
      loss := some (zeros.set 0 lossSum)
      temp1 := some ((List.range length).map p), temp2 := some ((List.range length).map e) })
  else
    (ERROR_NONE, { st with loss := some zeros, temp1 := some t1, temp2 := some t2 })

/-- `loss_backward`: reject when a scratch buffer is missing, otherwise per
kind overwrite the loss buffer with the derivative; unknown kinds fall through
every branch, leave the buffer untouched and still return `ERROR_NONE`. -/
def loss_backward (st : LossState) (length : Nat) : Nat × LossState :=
  match st.temp1, st.temp2 with
  | none, _ => (ERROR_LOSS_NO_TEMP, st)
  | _, none => (ERROR_LOSS_NO_TEMP, st)
  | some temp1, some temp2 =>
    let t1 := fun i => temp1.getD i 0
    let t2 := fun i => temp2.getD i 0
    let lossArr := st.loss.getD (List.replicate length 0)
    if st.type = LOSS_MEAN_SQUARED_ERROR then
      (ERROR_NONE, { st with
        loss := some ((List.range length).map (fun i => -2 * t1 i / (length : ℚ))) })
    else if st.type = LOSS_MEAN_SQUARED_LOG_ERROR then
      (ERROR_NONE, { st with
        loss := some ((List.range length).map (fun i => -2 / (length : ℚ) * t2 i / t1 i)) })
    else if st.type = LOSS_ROOT_MEAN_SQUARED_LOG_ERROR then
      let rmsle := lossArr.getD 0 0
      (ERROR_NONE, { st with
        loss := some ((List.range length).map
          (fun i => -2 / (length : ℚ) * t2 i / t1 i / (2 * rmsle + EPSILON))) })
    else if st.type = LOSS_MEAN_ABS_ERROR then
      (ERROR_NONE, { st with
        loss := some ((List.range length).map
          (fun i => -1 / (length : ℚ) * t1 i / (t2 i + EPSILON))) })
    else if st.type = LOSS_BINARY_CROSSENTROPY then
      (ERROR_NONE, { st with
        loss := some ((List.range length).map
          (fun i => 1 / (length : ℚ) * (t1 i - t2 i) / (t1 i - t1 i * t1 i + EPSILON))) })
    else if st.type = LOSS_CATEGORICAL_CROSSENTROPY then
      (ERROR_NONE, { st with
        loss := some ((List.range length).map (fun i => -t2 i / (t1 i + EPSILON))) })
    else
      (ERROR_NONE, st)

/-! ## Training-loop derived quantities (src/flower.c, `flower_train`) -/

/-- Batch count of `flower_train` (lines 628–631):
`batches_per_epoch = train_length / batch_size`, incremented once when the
product falls short.  `train_length / 0` is a division by zero in C (undefined
behaviour), modelled as `none`. -/
def flower_train_batches_per_epoch (train_length batch_size : Nat) : Option Nat :=
  if batch_size = 0 then none
  else
    let b := train_length / batch_size
    some (if b * batch_size < train_length then b + 1 else b)

/-- The `batches_per_epoch == 0` check of `flower_train` (lines 634–639). -/
def flower_train_batch_check (batches_per_epoch : Nat) : Option Nat :=
  if batches_per_epoch = 0 then some ERROR_WRONG_BATCH_SIZE else none

/-- Loss-kind check performed when `flower_train` first creates the loss record
(lines 600–615): kinds above `LOSS_MAX` are rejected with
`ERROR_LOSS_WRONG_TYPE`. -/
def flower_train_loss_check (loss_type : Nat) : Option Nat :=
  if LOSS_MAX < loss_type then some ERROR_LOSS_WRONG_TYPE else none

/-- Left-output argument selection of the backward loop of `flower_train`
(lines 723–733), for `petal_i ∈ [0, petals_length)`: the last petal reads the
output of petal `petal_i - 1` (an `Int`, since C computes `petal_i - 1` on a
signed index), petal 0 otherwise receives the current sample input, and middle
petals read the previous petal output. -/
inductive LeftOutputSrc where
  | petalOutput (i : Int)
  | sampleInput
deriving Repr, DecidableEq

def flower_backward_left_source (petals_length petal_i : Nat) : LeftOutputSrc :=
  if petal_i = petals_length - 1 then .petalOutput ((petal_i : Int) - 1)
  else if petal_i = 0 then .sampleInput
  else .petalOutput ((petal_i : Int) - 1)

/-! ## Theorems -/

set_option maxRecDepth 100000 in
/-- C6: after seeding with 0, the first five 32-bit draws are exactly
2357136044, 2546248239, 3071714933, 3626093760, 2588848963. -/
theorem rk_seed_zero_first_five_draws :
    rkDraws (rkSeed 0) 5 = [2357136044, 2546248239, 3071714933, 3626093760, 2588848963] := by
  decide

/-! ### Bit-array lemmas -/

/-- A bit read is the `Nat.testBit` of its word. -/
theorem get_bit_eq_testBit (ba : BitArray) (i : Nat) (h : i < ba.length) :
    bit_array_get_bit ba i
      = (ba.data.getD (i / BIT_ARRAY_BITS) 0).testBit (i % BIT_ARRAY_BITS) := by
  unfold bit_array_get_bit
  rw [if_neg (by omega)]
  rcases Nat.mod_two_eq_zero_or_one ((ba.data.getD (i / BIT_ARRAY_BITS) 0)
      >>> (i % BIT_ARRAY_BITS)) with h2 | h2 <;>
    simp [Nat.testBit, Nat.and_one_is_mod, h2]

theorem bit_array_init_length (L : Nat) : (bit_array_init L).length = L := rfl

theorem bit_array_init_wf (L : Nat) : BitArrayWF (bit_array_init L) := by
  constructor
  · simp [bit_array_init]
  · intro w hw
    have := List.eq_of_mem_replicate hw
    omega

theorem getD_replicate_zero (k j : Nat) : (List.replicate k (0 : Nat)).getD j 0 = 0 := by
  rw [List.getD_eq_getElem?_getD, List.getElem?_replicate]
  split <;> rfl

theorem get_bit_init (L i : Nat) : bit_array_get_bit (bit_array_init L) i = false := by
  by_cases h : i < L
  · rw [get_bit_eq_testBit _ _ h]
    simp [bit_array_init, getD_replicate_zero]
  · unfold bit_array_get_bit
    rw [if_pos (by simpa [bit_array_init] using Nat.le_of_not_lt h)]

theorem set_bit_length (ba : BitArray) (i : Nat) :
    (bit_array_set_bit ba i).length = ba.length := by
  unfold bit_array_set_bit
  split <;> rfl

theorem set_bit_error (ba : BitArray) (i : Nat) (hi : i < ba.length) :
    (bit_array_set_bit ba i).error_code = ba.error_code := by
  unfold bit_array_set_bit
  rw [if_neg (by omega)]

theorem getD_lt_256 (l : List Nat) (hl : ∀ w ∈ l, w < 256) (k : Nat) : l.getD k 0 < 256 := by
  rw [List.getD_eq_getElem?_getD]
  cases hx : l[k]? with
  | none => simp
  | some v =>
    have hv : v ∈ l := by
      have hk : k < l.length := by
        by_contra hk
        rw [List.getElem?_eq_none (by omega)] at hx
        exact Option.noConfusion hx
      have := List.getElem?_eq_getElem hk
      rw [this] at hx
      cases hx
      exact List.getElem_mem hk
    simpa using hl v hv

theorem set_bit_wf (ba : BitArray) (i : Nat) (hwf : BitArrayWF ba) :
    BitArrayWF (bit_array_set_bit ba i) := by
  unfold bit_array_set_bit
  split
  · exact hwf
  · refine ⟨by simpa using hwf.1, ?_⟩
    intro w hw
    rcases List.mem_or_eq_of_mem_set hw with h | h
    · exact hwf.2 w h
    · subst h
      have h1 : ba.data.getD (i / BIT_ARRAY_BITS) 0 < 256 := getD_lt_256 _ hwf.2 _
      have h2 : (1 : Nat) <<< (i % BIT_ARRAY_BITS) < 256 := by
        rw [Nat.one_shiftLeft]
        have hm : i % BIT_ARRAY_BITS < 8 := by
          show i % 8 < 8
          omega
        calc (2 : Nat) ^ (i % BIT_ARRAY_BITS) ≤ 2 ^ 7 := by
              apply Nat.pow_le_pow_right (by norm_num)
              omega
          _ < 256 := by norm_num
      exact Nat.or_lt_two_pow (n := 8) h1 h2

theorem get_bit_set_bit (ba : BitArray) (hwf : BitArrayWF ba) (i j : Nat)
    (hi : i < ba.length) (hj : j < ba.length) :
    bit_array_get_bit (bit_array_set_bit ba i) j
      = (decide (j = i) || bit_array_get_bit ba j) := by
  have hb : BIT_ARRAY_BITS = 8 := rfl
  have hk : i / BIT_ARRAY_BITS < ba.data.length := by
    rw [hwf.1, hb]
    omega
  rw [get_bit_eq_testBit _ _ (by rwa [set_bit_length]), get_bit_eq_testBit _ _ hj]
  unfold bit_array_set_bit
  rw [if_neg (by omega)]
  by_cases hsame : j / BIT_ARRAY_BITS = i / BIT_ARRAY_BITS
  · rw [hsame]
    have hget : (ba.data.set (i / BIT_ARRAY_BITS)
          ((ba.data.getD (i / BIT_ARRAY_BITS) 0) ||| (1 <<< (i % BIT_ARRAY_BITS)))).getD
            (i / BIT_ARRAY_BITS) 0
        = (ba.data.getD (i / BIT_ARRAY_BITS) 0) ||| (1 <<< (i % BIT_ARRAY_BITS)) := by
      rw [List.getD_eq_getElem?_getD, List.getElem?_set_self hk]
      rfl
    show ((ba.data.set _ _).getD (i / BIT_ARRAY_BITS) 0).testBit (j % BIT_ARRAY_BITS) = _
    rw [hget, Nat.testBit_or, Nat.one_shiftLeft, Nat.testBit_two_pow]
    have hij : (j = i) ↔ (i % BIT_ARRAY_BITS = j % BIT_ARRAY_BITS) := by
      rw [hb] at hsame ⊢
      constructor
      · intro h
        rw [h]
      · intro h
        omega
    by_cases h : j = i
    · simp [h, hij.mp h]
    · have hne := (not_congr hij).mp h
      simp only [h, decide_eq_true_eq, decide_eq_false hne]
      simp [h]
  · have hget : (ba.data.set (i / BIT_ARRAY_BITS)
          ((ba.data.getD (i / BIT_ARRAY_BITS) 0) ||| (1 <<< (i % BIT_ARRAY_BITS)))).getD
            (j / BIT_ARRAY_BITS) 0
        = ba.data.getD (j / BIT_ARRAY_BITS) 0 := by
      rw [List.getD_eq_getElem?_getD, List.getElem?_set_ne (by omega),
        ← List.getD_eq_getElem?_getD]
    show ((ba.data.set _ _).getD (j / BIT_ARRAY_BITS) 0).testBit (j % BIT_ARRAY_BITS) = _
    rw [hget]
    have hne : j ≠ i := by
      intro h
      exact hsame (by rw [h])
    simp [hne]

theorem countSetBits_init (L : Nat) : countSetBits (bit_array_init L) = 0 := by
  unfold countSetBits
  rw [Finset.card_eq_zero, Finset.filter_eq_empty_iff]
  intro j _
  simp [get_bit_init]

theorem countSetBits_set_bit (ba : BitArray) (i : Nat) (hwf : BitArrayWF ba)
    (hi : i < ba.length) (hval : bit_array_get_bit ba i = false) :
    countSetBits (bit_array_set_bit ba i) = countSetBits ba + 1 := by
  unfold countSetBits
  rw [set_bit_length]
  have hcongr : (Finset.range ba.length).filter
        (fun j => bit_array_get_bit (bit_array_set_bit ba i) j = true)
      = (Finset.range ba.length).filter (fun j => j = i ∨ bit_array_get_bit ba j = true) := by
    apply Finset.filter_congr
    intro j hj
    rw [Finset.mem_range] at hj
    rw [get_bit_set_bit ba hwf i j hi hj]
    simp
  have hdisj : Disjoint ((Finset.range ba.length).filter (fun j => j = i))
      ((Finset.range ba.length).filter (fun j => bit_array_get_bit ba j = true)) := by
    rw [Finset.filter_eq', if_pos (Finset.mem_range.mpr hi), Finset.disjoint_singleton_left,
      Finset.mem_filter]
    intro hmem
    rw [hval] at hmem
    exact Bool.noConfusion hmem.2
  rw [hcongr, Finset.filter_or, Finset.card_union_of_disjoint hdisj, Finset.filter_eq',
    if_pos (Finset.mem_range.mpr hi), Finset.card_singleton]
  omega

theorem get_bit_not (ba : BitArray) (hwf : BitArrayWF ba) (j : Nat) (hj : j < ba.length) :
    bit_array_get_bit (bit_array_not ba) j = ! bit_array_get_bit ba j := by
  have hb : BIT_ARRAY_BITS = 8 := rfl
  have hk : j / BIT_ARRAY_BITS < ba.data.length := by
    rw [hwf.1, hb]
    omega
  rw [get_bit_eq_testBit _ _ (by simpa [bit_array_not] using hj),
    get_bit_eq_testBit _ _ hj]
  have hget : (bit_array_not ba).data.getD (j / BIT_ARRAY_BITS) 0
      = (ba.data.getD (j / BIT_ARRAY_BITS) 0) ^^^ 255 := by
    show (ba.data.map (fun w => w ^^^ 255)).getD (j / BIT_ARRAY_BITS) 0 = _
    rw [List.getD_eq_getElem?_getD, List.getElem?_map, List.getD_eq_getElem?_getD]
    cases hx : ba.data[j / BIT_ARRAY_BITS]? with
    | none =>
      rw [List.getElem?_eq_none_iff] at hx
      omega
    | some v => rfl
  rw [hget, Nat.testBit_xor]
  have h255 : (255 : Nat).testBit (j % BIT_ARRAY_BITS) = true := by
    have : (255 : Nat) = 2 ^ 8 - 1 := by norm_num
    rw [this, Nat.testBit_two_pow_sub_one]
    have : j % BIT_ARRAY_BITS < 8 := by
      rw [hb]
      omega
    simpa using this
  rw [h255]
  cases (ba.data.getD (j / BIT_ARRAY_BITS) 0).testBit (j % BIT_ARRAY_BITS) <;> rfl

theorem countSetBits_not (ba : BitArray) (hwf : BitArrayWF ba) :
    countSetBits (bit_array_not ba) = ba.length - countSetBits ba := by
  unfold countSetBits
  have hlen : (bit_array_not ba).length = ba.length := rfl
  rw [hlen]
  have hcongr : (Finset.range ba.length).filter
        (fun j => bit_array_get_bit (bit_array_not ba) j = true)
      = (Finset.range ba.length).filter (fun j => ¬ (bit_array_get_bit ba j = true)) := by
    apply Finset.filter_congr
    intro j hj
    rw [Finset.mem_range] at hj
    rw [get_bit_not ba hwf j hj]
    simp
  rw [hcongr, Finset.filter_not, Finset.card_sdiff (Finset.filter_subset _ _),
    Finset.card_range]

theorem foldl_set_bit_spec (ba : BitArray) (hwf : BitArrayWF ba) :
    ∀ m : Nat, m ≤ ba.length →
      ((List.range m).foldl bit_array_set_bit ba).length = ba.length ∧
      BitArrayWF ((List.range m).foldl bit_array_set_bit ba) ∧
      ∀ j, j < ba.length →
        bit_array_get_bit ((List.range m).foldl bit_array_set_bit ba) j
          = (decide (j < m) || bit_array_get_bit ba j) := by
  intro m
  induction m with
  | zero =>
    intro _
    refine ⟨rfl, hwf, ?_⟩
    intro j _
    simp
  | succ m ih =>
    intro hm
    obtain ⟨ihlen, ihwf, ihget⟩ := ih (by omega)
    rw [List.range_succ, List.foldl_append]
    have hmlt : m < ((List.range m).foldl bit_array_set_bit ba).length := by
      rw [ihlen]
      omega
    refine ⟨?_, ?_, ?_⟩
    · simp [set_bit_length, ihlen]
    · exact set_bit_wf _ _ ihwf
    · intro j hj
      show bit_array_get_bit (bit_array_set_bit _ m) j = _
      rw [get_bit_set_bit _ ihwf m j hmlt (by omega), ihget j hj]
      by_cases h1 : j = m
      · simp [h1]
      · by_cases h2 : j < m
        · simp [h1, h2]
          omega
        · have h3 : ¬ j < m + 1 := by omega
          simp [h1, h2, h3]

/-- Invariant of the rejection loop: when it completes, exactly `k` bits are
set (the counter tracks `countSetBits` and only fresh indices increment it). -/
theorem dropoutSampleLoop_spec (rng : Nat → Nat) (k : Nat) :
    ∀ (fuel t counter : Nat) (ba ba' : BitArray),
      BitArrayWF ba → 1 ≤ ba.length → counter ≤ k →
      countSetBits ba = counter →
      dropoutSampleLoop rng k fuel t counter ba = some ba' →
      countSetBits ba' = k ∧ BitArrayWF ba' ∧ ba'.length = ba.length := by
  intro fuel
  induction fuel with
  | zero =>
    intro t counter ba ba' hwf hL hck hcount h
    unfold dropoutSampleLoop at h
    by_cases hlt : counter < k
    · rw [if_pos hlt] at h
      exact Option.noConfusion h
    · rw [if_neg hlt] at h
      cases h
      exact ⟨by omega, hwf, rfl⟩
  | succ fuel ih =>
    intro t counter ba ba' hwf hL hck hcount h
    unfold dropoutSampleLoop at h
    by_cases hlt : counter < k
    · rw [if_pos hlt] at h
      simp only at h
      have hidx : rng t % ba.length < ba.length := Nat.mod_lt _ (by omega)
      by_cases hbit : bit_array_get_bit ba (rng t % ba.length) = true
      · rw [if_pos hbit] at h
        exact ih (t + 1) counter ba ba' hwf hL hck hcount h
      · rw [if_neg hbit] at h
        have hwf2 := set_bit_wf ba (rng t % ba.length) hwf
        have hlen2 : (bit_array_set_bit ba (rng t % ba.length)).length = ba.length :=
          set_bit_length _ _
        have hcount2 : countSetBits (bit_array_set_bit ba (rng t % ba.length)) = counter + 1 := by
          rw [countSetBits_set_bit ba _ hwf hidx (Bool.not_eq_true _ ▸ hbit), hcount]
        obtain ⟨hc, hw, hl⟩ :=
          ih (t + 1) (counter + 1) _ ba' hwf2 (by omega) (by omega) hcount2 h
        exact ⟨hc, hw, by omega⟩
    · rw [if_neg hlt] at h
      cases h
      exact ⟨by omega, hwf, rfl⟩

theorem countSetBits_eq_length_of_all (ba : BitArray)
    (h : ∀ j, j < ba.length → bit_array_get_bit ba j = true) :
    countSetBits ba = ba.length := by
  unfold countSetBits
  rw [Finset.filter_true_of_mem, Finset.card_range]
  intro j hj
  exact h j (Finset.mem_range.mp hj)

theorem floor_toNat_le (L : Nat) (r : ℚ) (h1 : r ≤ 1) : (⌊(L : ℚ) * r⌋).toNat ≤ L := by
  have hle : (L : ℚ) * r ≤ (L : ℚ) := by
    calc (L : ℚ) * r ≤ (L : ℚ) * 1 := by
          apply mul_le_mul_of_nonneg_left h1
          positivity
      _ = (L : ℚ) := mul_one _
  have := Int.floor_le_floor hle
  rw [Int.floor_natCast] at this
  omega

set_option maxHeartbeats 1000000 in
/-- C2 (amended): whenever `dropout_generate_indices` completes on a cleared
mask of length `L ≥ 1` with ratio `r ∈ [0,1]`, the number of set bits among the
`L` mask bits is exactly `⌊r·L⌋` for every `r ≠ 1/2`; at `r = 1/2` exactly it is
`L − ⌊L/2⌋` (the drop-count branch and the keep-invert branch both fire). -/
theorem dropout_mask_set_bit_count (rng : Nat → Nat) (fuel L : Nat) (r : ℚ)
    (hL : 1 ≤ L) (h0 : 0 ≤ r) (h1 : r ≤ 1) (ba' : BitArray)
    (h : dropout_generate_indices rng fuel (bit_array_init L) r = some ba') :
    countSetBits ba'
      = if r = 1 / 2 then L - (⌊(L : ℚ) * r⌋).toNat else (⌊(L : ℚ) * r⌋).toNat := by
  have hflo : (⌊(L : ℚ) * r⌋).toNat ≤ L := floor_toNat_le L r h1
  have hkle : dropout_indices_count L r ≤ L := by
    unfold dropout_indices_count
    split
    · exact hflo
    · split
      · omega
      · omega
  unfold dropout_generate_indices at h
  rw [bit_array_init_length] at h
  rw [if_neg (by omega)] at h
  set k := dropout_indices_count L r with hkdef
  have hsampled : ∀ ba'', (if k = L then
        some ((List.range L).foldl bit_array_set_bit (bit_array_init L))
      else dropoutSampleLoop rng k fuel 0 0 (bit_array_init L)) = some ba'' →
      countSetBits ba'' = k ∧ BitArrayWF ba'' ∧ ba''.length = L := by
    intro ba'' hba
    by_cases hkL : k = L
    · rw [if_pos hkL] at hba
      cases hba
      obtain ⟨hlen, hwf, hget⟩ :=
        foldl_set_bit_spec (bit_array_init L) (bit_array_init_wf L) L
          (by rw [bit_array_init_length])
      rw [bit_array_init_length] at hlen hget
      refine ⟨?_, hwf, hlen⟩
      rw [countSetBits_eq_length_of_all _ ?_, hlen, hkL]
      intro j hj
      rw [hlen] at hj
      rw [hget j hj]
      simp [hj]
    · rw [if_neg hkL] at hba
      obtain ⟨hc, hw, hl⟩ := dropoutSampleLoop_spec rng k fuel 0 0 (bit_array_init L) ba''
        (bit_array_init_wf L) (by rw [bit_array_init_length]; omega) (by omega)
        (countSetBits_init L) hba
      rw [bit_array_init_length] at hl
      exact ⟨hc, hw, hl⟩
  by_cases hinv : r ≤ 1 ∧ 1 / 2 ≤ r
  · rw [if_pos hinv] at h
    obtain ⟨ba'', hba, hnot⟩ := Option.map_eq_some'.mp h
    obtain ⟨hc, hw, hl⟩ := hsampled ba'' hba
    subst hnot
    rw [countSetBits_not ba'' hw, hl, hc]
    by_cases hhalf : r = 1 / 2
    · rw [if_pos hhalf]
      have : k = (⌊(L : ℚ) * r⌋).toNat := by
        rw [hkdef]
        unfold dropout_indices_count
        rw [if_pos ⟨h0, by rw [hhalf]⟩]
      omega
    · rw [if_neg hhalf]
      have hgt : 1 / 2 < r := lt_of_le_of_ne hinv.2 (fun hx => hhalf hx.symm)
      have : k = L - (⌊(L : ℚ) * r⌋).toNat := by
        rw [hkdef]
        unfold dropout_indices_count
        rw [if_neg (by
          rintro ⟨-, hle⟩
          exact absurd hle (not_le.mpr hgt)), if_pos ⟨h1, hinv.2⟩]
      omega
  · rw [if_neg hinv] at h
    obtain ⟨hc, hw, hl⟩ := hsampled ba' h
    have hlt : r < 1 / 2 := by
      rcases not_and_or.mp hinv with hx | hx
      · exact absurd h1 hx
      · exact not_le.mp hx
    have hhalf : r ≠ 1 / 2 := fun hx => absurd (le_of_eq hx.symm) (not_le.mpr hlt)
    rw [if_neg hhalf, hc, hkdef]
    unfold dropout_indices_count
    rw [if_pos ⟨h0, le_of_lt hlt⟩]

/-- C2 counterexample: on a cleared mask of length 5 with ratio exactly 1/2 the
sampler terminates (here with the index stream 0,1,2,…) but sets 3 bits, not
`⌊1/2·5⌋ = 2`: at `r = 1/2` the code computes the drop count `⌊L·r⌋` in the
`r ≤ 0.5` branch and then also inverts the mask in the `r ≥ 0.5` branch. -/
theorem dropout_ratio_half_count_counterexample :
    (dropout_generate_indices (fun t => t) 10 (bit_array_init 5) (1 / 2)).map countSetBits
        = some 3 ∧
      (⌊((5 : Nat) : ℚ) * (1 / 2)⌋).toNat = 2 := by
  have hk : dropout_indices_count 5 (1 / 2) = 2 := by
    unfold dropout_indices_count
    rw [if_pos (by norm_num)]
    norm_num
    rfl
  constructor
  · simp only [dropout_generate_indices, bit_array_init]
    norm_num [hk]
    exact ⟨_, rfl, by decide⟩
  · norm_num
    rfl

/-- Witness for C2: the spec scenario `L = 50`, `r = 0.2` run with the index
stream 0,1,2,… sets exactly `⌊0.2·50⌋ = 10` bits. -/
theorem dropout_mask_set_bit_count_witness :
    (dropout_generate_indices (fun t => t) 100 (bit_array_init 50) (1 / 5 : ℚ)).map countSetBits
      = some 10 := by
  have hk : dropout_indices_count 50 (1 / 5 : ℚ) = 10 := by
    unfold dropout_indices_count
    rw [if_pos (by norm_num)]
    norm_num
    rfl
  cases hE : dropout_generate_indices (fun t => t) 100 (bit_array_init 50) (1 / 5 : ℚ) with
  | none =>
    exfalso
    revert hE
    simp only [dropout_generate_indices, bit_array_init]
    norm_num [hk]
    decide
  | some ba =>
    have hcount := dropout_mask_set_bit_count (fun t => t) 100 50 (1 / 5) (by norm_num)
      (by norm_num) (by norm_num) ba hE
    rw [Option.map_some', hcount, if_neg (by norm_num)]
    norm_num
    rfl

/-! ### Dense forward (C1) -/

theorem foldl_add_range (f : Nat → ℚ) (n : Nat) :
    ∀ a : ℚ, (List.range n).foldl (fun acc i => acc + f i) a
      = a + ∑ i ∈ Finset.range n, f i := by
  induction n with
  | zero =>
    intro a
    simp
  | succ n ih =>
    intro a
    rw [List.range_succ, List.foldl_append, ih, Finset.sum_range_succ]
    show a + _ + f n = _
    ring

/-- C1: in the dense branch of `petal_forward`, every output entry `j < outLen`
is 0 when its dropout bit is set (and dropout is enabled), and otherwise equals
the dot product `Σᵢ W[j·inLen + i]·input[i]` (row-major weights) — or the plain
`Σᵢ input[i]` when the weight tensor is absent — plus `b[j]` when bias weights
are present. -/
theorem dense1d_forward_spec (inLen outLen : Nat) (w bias : Option (Nat → ℚ))
    (input : Nat → ℚ) (dropout_enabled : Bool) (mask : BitArray) (j : Nat)
    (hj : j < outLen) :
    (petal_forward_dense1d_out inLen outLen w bias input dropout_enabled mask).getD j 0
      = if dropout_enabled && bit_array_get_bit mask j then 0
        else
          (match w with
           | some wf => ∑ i ∈ Finset.range inLen, wf (j * inLen + i) * input i
           | none => ∑ i ∈ Finset.range inLen, input i) +
          (match bias with
           | some bf => bf j
           | none => 0) := by
  have hmap : (petal_forward_dense1d_out inLen outLen w bias input dropout_enabled mask).getD j 0
      = petal_forward_dense1d inLen w bias input dropout_enabled mask j := by
    unfold petal_forward_dense1d_out
    rw [List.getD_eq_getElem?_getD, List.getElem?_map, List.getElem?_range hj]
    rfl
  rw [hmap]
  unfold petal_forward_dense1d
  by_cases hdrop : dropout_enabled && bit_array_get_bit mask j
  · rw [if_pos hdrop, if_pos hdrop]
  · rw [if_neg hdrop, if_neg hdrop]
    congr 1
    cases w with
    | none =>
      show dense1dSum input inLen = _
      unfold dense1dSum
      rw [foldl_add_range, zero_add]
    | some wf =>
      show dense1dDot wf input (j * inLen) inLen = _
      unfold dense1dDot
      rw [foldl_add_range (fun i => wf (j * inLen + i) * input i), zero_add]

/-- C1 witness: a 2→2 dense kernel with `W = [0,1,2,3]` (row-major), bias
`b = [10, 20]`, input `[1, 1]`, no dropout: output 1 is `2·1 + 3·1 + 20 = 25`. -/
theorem dense1d_forward_spec_witness :
    (1 : Nat) < 2 ∧
      (petal_forward_dense1d_out 2 2 (some (fun i => (i : ℚ)))
          (some (fun j => 10 * ((j : ℚ) + 1))) (fun _ => 1) false
          (bit_array_init 2)).getD 1 0 = 25 := by
  refine ⟨by norm_num, ?_⟩
  rw [dense1d_forward_spec 2 2 (some (fun i => (i : ℚ)))
    (some (fun j => 10 * ((j : ℚ) + 1))) (fun _ => 1) false (bit_array_init 2) 1 (by norm_num)]
  simp [Finset.sum_range_succ]
  norm_num

/-! ### Weights update (C3, C4) -/

/-- C3: for a trainable weights record, every defined optimizer kind returns
`ERROR_NONE` and leaves the whole gradient accumulator zeroed; an undefined
kind returns `ERROR_OPTIMIZER_WRONG_TYPE` and leaves weights, gradients,
moments and the learning-step counter untouched (the velocity buffer is merely
materialised to its zero-filled allocation, exactly as the `calloc` in the
source does). -/
theorem weights_update_spec (sqrtq : ℚ → ℚ) (w : WeightsQ) (opt : OptimizerQ)
    (htr : w.trainable = true) :
    (opt.type ≤ OPTIMIZER_MAX →
      (weights_update sqrtq w opt).1 = ERROR_NONE ∧
        (weights_update sqrtq w opt).2.gradients = List.replicate w.length_total 0) ∧
    (OPTIMIZER_MAX < opt.type →
      weights_update sqrtq w opt =
        (ERROR_OPTIMIZER_WRONG_TYPE, { w with
          velocities_or_cache :=
            some (w.velocities_or_cache.getD (List.replicate w.length_total 0)) })) := by
  obtain ⟨ty, lr, mom, b1, b2⟩ := opt
  constructor
  · intro hty
    have h3 : ty ≤ 3 := hty
    unfold weights_update
    simp only [htr, not_true_eq_false, if_false]
    interval_cases ty
    · rw [if_pos (show (0 : Nat) = OPTIMIZER_SGD_MOMENTUM from rfl)]
      by_cases hm : 0 < mom
      · rw [if_pos hm]
        exact ⟨rfl, rfl⟩
      · rw [if_neg hm]
        exact ⟨rfl, rfl⟩
    · rw [if_neg (by decide), if_pos (show (1 : Nat) = OPTIMIZER_RMS_PROP from rfl)]
      exact ⟨rfl, rfl⟩
    · rw [if_neg (by decide), if_neg (by decide),
        if_pos (show (2 : Nat) = OPTIMIZER_ADA_GRAD from rfl)]
      exact ⟨rfl, rfl⟩
    · rw [if_neg (by decide), if_neg (by decide), if_neg (by decide),
        if_pos (show (3 : Nat) = OPTIMIZER_ADAM from rfl)]
      exact ⟨rfl, rfl⟩
  · intro hty
    have h3 : 3 < ty := hty
    unfold weights_update
    simp only [htr, not_true_eq_false, if_false]
    rw [if_neg (by show ty ≠ 0; omega), if_neg (by show ty ≠ 1; omega),
      if_neg (by show ty ≠ 2; omega), if_neg (by show ty ≠ 3; omega)]

/-- Witness for C3: an AdaGrad step on a 2-element trainable record returns
`ERROR_NONE` with zeroed gradients, and the undefined kind 9 returns
`ERROR_OPTIMIZER_WRONG_TYPE` leaving the record (up to materialising the zero
velocity buffer) untouched. -/
theorem weights_update_spec_witness :
    ((weights_update (fun q => q)
          { trainable := true, length_total := 2, weights := [1, 2], gradients := [3, 4],
            moments := none, velocities_or_cache := none, learning_step := 5 }
          { type := 2, learning_rate := 0, momentum := 0, beta_1 := 0, beta_2 := 0 }).1
        = ERROR_NONE ∧
      (weights_update (fun q => q)
          { trainable := true, length_total := 2, weights := [1, 2], gradients := [3, 4],
            moments := none, velocities_or_cache := none, learning_step := 5 }
          { type := 2, learning_rate := 0, momentum := 0, beta_1 := 0, beta_2 := 0 }).2.gradients
        = List.replicate 2 0) ∧
    weights_update (fun q => q)
        { trainable := true, length_total := 2, weights := [1, 2], gradients := [3, 4],
          moments := none, velocities_or_cache := none, learning_step := 5 }
        { type := 9, learning_rate := 0, momentum := 0, beta_1 := 0, beta_2 := 0 }
      = (ERROR_OPTIMIZER_WRONG_TYPE,
          { trainable := true, length_total := 2, weights := [1, 2], gradients := [3, 4],
            moments := none, velocities_or_cache := some (List.replicate 2 0),
            learning_step := 5 }) := by
  constructor
  · exact (weights_update_spec (fun q => q)
      { trainable := true, length_total := 2, weights := [1, 2], gradients := [3, 4],
        moments := none, velocities_or_cache := none, learning_step := 5 }
      { type := 2, learning_rate := 0, momentum := 0, beta_1 := 0, beta_2 := 0 } rfl).1
      (by decide)
  · exact (weights_update_spec (fun q => q)
      { trainable := true, length_total := 2, weights := [1, 2], gradients := [3, 4],
        moments := none, velocities_or_cache := none, learning_step := 5 }
      { type := 9, learning_rate := 0, momentum := 0, beta_1 := 0, beta_2 := 0 } rfl).2
      (by decide)

/-- C4 (evaluation at the failing input): one Adam update of a 2-element
trainable tensor with `t = 0`, gradients `[1,1]`, `lr = 1`, `β₁ = 1/2`,
`β₂ = 0` leaves `_learning_step = 2` (the claim mandates `t+1 = 1`), and the two
elements are bias-corrected with different exponents: element 0 uses
`1−β₁^1` (moment-hat 1) while element 1 uses `1−β₁^2` (moment-hat 2/3),
because `_learning_step++` sits inside the per-element loop. -/
theorem adam_learning_step_per_element :
    ∀ sqrtq : ℚ → ℚ,
      (weights_update sqrtq
          { trainable := true, length_total := 2, weights := [0, 0], gradients := [1, 1],
            moments := none, velocities_or_cache := none, learning_step := 0 }
          { type := 3, learning_rate := 1, momentum := 0, beta_1 := 1 / 2,
            beta_2 := 0 }).2.learning_step = 2 ∧
      (weights_update sqrtq
          { trainable := true, length_total := 2, weights := [0, 0], gradients := [1, 1],
            moments := none, velocities_or_cache := none, learning_step := 0 }
          { type := 3, learning_rate := 1, momentum := 0, beta_1 := 1 / 2,
            beta_2 := 0 }).2.weights.getD 0 0 = -(1 / (sqrtq 1 + EPSILON)) ∧
      (weights_update sqrtq
          { trainable := true, length_total := 2, weights := [0, 0], gradients := [1, 1],
            moments := none, velocities_or_cache := none, learning_step := 0 }
          { type := 3, learning_rate := 1, momentum := 0, beta_1 := 1 / 2,
            beta_2 := 0 }).2.weights.getD 1 0 = -(2 / 3 / (sqrtq 1 + EPSILON)) := by
  intro sqrtq
  unfold weights_update
  norm_num [List.range_succ, OPTIMIZER_SGD_MOMENTUM, OPTIMIZER_RMS_PROP, OPTIMIZER_ADA_GRAD,
    OPTIMIZER_ADAM]

/-! ### PRNG reproducibility (C5) -/

theorem dropoutSampleLoop_congr (rs1 rs2 : Nat → Nat) (k : Nat) :
    ∀ (fuel t counter : Nat) (ba : BitArray),
      (∀ i, t ≤ i → i < t + fuel → rs1 i = rs2 i) →
      dropoutSampleLoop rs1 k fuel t counter ba = dropoutSampleLoop rs2 k fuel t counter ba := by
  intro fuel
  induction fuel with
  | zero =>
    intro t counter ba _
    rfl
  | succ fuel ih =>
    intro t counter ba hagree
    unfold dropoutSampleLoop
    by_cases hlt : counter < k
    · rw [if_pos hlt, if_pos hlt]
      have ht : rs1 t = rs2 t := hagree t (le_refl t) (by omega)
      simp only [ht]
      by_cases hbit : bit_array_get_bit ba (rs2 t % ba.length)
      · rw [if_pos hbit, if_pos hbit]
        exact ih (t + 1) counter ba (fun i h1 h2 => hagree i (by omega) (by omega))
      · rw [if_neg hbit, if_neg hbit]
        exact ih (t + 1) (counter + 1) _ (fun i h1 h2 => hagree i (by omega) (by omega))
    · rw [if_neg hlt, if_neg hlt]

theorem gaussRejectLoop_congr (rs1 rs2 : Nat → Nat) (hagree : ∀ i, rs1 i = rs2 i) :
    ∀ fuel t, gaussRejectLoop rs1 fuel t = gaussRejectLoop rs2 fuel t := by
  intro fuel
  induction fuel with
  | zero =>
    intro t
    rfl
  | succ fuel ih =>
    intro t
    unfold gaussRejectLoop
    simp only
    have hx : gaussDraw rs1 t = gaussDraw rs2 t := by
      unfold gaussDraw
      rw [hagree t]
    have hy : gaussDraw rs1 (t + 1) = gaussDraw rs2 (t + 1) := by
      unfold gaussDraw
      rw [hagree (t + 1)]
    rw [hx, hy]
    split
    · exact ih (t + 2)
    · rfl

theorem weights_init_gaussian_aux_congr (sqrtq logq : ℚ → ℚ) (rs1 rs2 : Nat → Nat)
    (c d : ℚ) (fuel : Nat) (hagree : ∀ i, rs1 i = rs2 i) :
    ∀ rem t, weights_init_gaussian_aux sqrtq logq rs1 c d fuel t rem
      = weights_init_gaussian_aux sqrtq logq rs2 c d fuel t rem := by
  intro rem
  induction rem using Nat.strong_induction_on with
  | _ rem ih =>
    intro t
    match rem with
    | 0 => rfl
    | 1 =>
      unfold weights_init_gaussian_aux
      rw [gaussRejectLoop_congr rs1 rs2 hagree fuel t]
    | rem + 2 =>
      unfold weights_init_gaussian_aux
      rw [gaussRejectLoop_congr rs1 rs2 hagree fuel t]
      cases gaussRejectLoop rs2 fuel t with
      | none => rfl
      | some p =>
        obtain ⟨x, y, t2⟩ := p
        simp only
        rw [ih rem (by omega) t2]

/-- C5 (amended): the dropout mask is a function of the PRNG draw stream — two
runs whose streams agree pointwise produce identical masks (in particular two
runs seeded identically, whose streams are both `rkStreamOf seed`, coincide);
Uniform and Gaussian (Marsaglia polar) weight initialization are functions of
the C library `rand()` stream (identical `rand()` sequences give identical
tensors) — the §4.1 generator never enters `weights_init`. -/
theorem dropout_and_weights_init_reproducibility (rs1 rs2 : Nat → Nat)
    (sqrtq logq : ℚ → ℚ) (fuel gfuel : Nat) (ba : BitArray) (r : ℚ)
    (n gn : Nat) (c d gc gd : ℚ)
    (hagree : ∀ i, rs1 i = rs2 i) :
    dropout_generate_indices rs1 fuel ba r = dropout_generate_indices rs2 fuel ba r ∧
      weights_init_uniform rs1 n c d = weights_init_uniform rs2 n c d ∧
      weights_init_gaussian sqrtq logq rs1 gfuel gn gc gd
        = weights_init_gaussian sqrtq logq rs2 gfuel gn gc gd := by
  refine ⟨?_, ?_, ?_⟩
  · unfold dropout_generate_indices
    simp only
    rw [dropoutSampleLoop_congr rs1 rs2 _ fuel 0 0 ba (fun i _ _ => hagree i)]
  · unfold weights_init_uniform
    apply List.map_congr_left
    intro i _
    rw [hagree i]
  · unfold weights_init_gaussian
    exact weights_init_gaussian_aux_congr sqrtq logq rs1 rs2 gc gd gfuel hagree gn 0

/-- C5 counterexample: with any fixed §4.1 PRNG seed, two runs that differ only
in the C library `rand()` state produce different Uniform-initialized weight
tensors (`center = 0`, `deviation = 1`, one element: the draws 0 and `RAND_MAX`
give −1 and 1), so initialization is not reproducible from the PRNG seed
alone. -/
theorem weights_init_uniform_not_seeded_counterexample :
    weights_init_uniform (fun _ => 0) 1 0 1
      ≠ weights_init_uniform (fun _ => C_RAND_MAX) 1 0 1 := by
  simp only [weights_init_uniform, List.range_succ, List.range_zero, List.nil_append,
    List.map_cons, List.map_nil, C_RAND_MAX]
  norm_num

/-- Witness for C5: two syntactically different streams that agree pointwise
(`1073741823 + i % 2` versus `1073741823 + (i + 2) % 2`, values near
`RAND_MAX/2` so the Marsaglia rejection loop accepts its first pair) produce
the same dropout mask, the same uniform tensor and the same Gaussian tensor. -/
theorem dropout_and_weights_init_reproducibility_witness :
    dropout_generate_indices (fun i => 1073741823 + i % 2) 8 (bit_array_init 4) (1 / 4 : ℚ)
        = dropout_generate_indices (fun i => 1073741823 + (i + 2) % 2) 8 (bit_array_init 4)
            (1 / 4 : ℚ) ∧
      weights_init_uniform (fun i => 1073741823 + i % 2) 2 0 1
        = weights_init_uniform (fun i => 1073741823 + (i + 2) % 2) 2 0 1 ∧
      weights_init_gaussian (fun q => q) (fun q => q) (fun i => 1073741823 + i % 2) 3 2 0 1
        = weights_init_gaussian (fun q => q) (fun q => q)
            (fun i => 1073741823 + (i + 2) % 2) 3 2 0 1 :=
  dropout_and_weights_init_reproducibility (fun i => 1073741823 + i % 2)
    (fun i => 1073741823 + (i + 2) % 2) (fun q => q) (fun q => q) 8 3 (bit_array_init 4)
    (1 / 4) 2 2 0 1 0 1
    (fun i => by
      show 1073741823 + i % 2 = 1073741823 + (i + 2) % 2
      omega)

/-! ### Petal buffers (C7), training loop (C8, C10), loss kinds (C9) -/

/-- C7 (evaluation at the failing input): `petal_init` sizes the non-first
petal's upstream-error buffer by the OUTPUT length
(`calloc(output_shape->length, …)`), while the dense backward pass writes one
entry per INPUT index; with input length 3 and output length 2 the write at
index 2 lands outside the 2-entry buffer. -/
theorem error_on_input_buffer_undersized :
    (petal_init_buffers false 2 false).errorOnInputLen = some 2 ∧
      2 ∈ petal_backward_dense_error_writes 3 ∧ ¬ (2 < 2) := by
  decide

/-- C8 (amended): for a non-empty training set and any `batch_size ≥ 1`,
`flower_train` computes `batches_per_epoch = ⌈train_length/batch_size⌉ ≥ 1`, so
the `WrongBatchSize` check never fires; for `batch_size = 0` the computation is
a division by zero (undefined behaviour), not a defined value. -/
theorem batches_per_epoch_spec (train_length batch_size : Nat)
    (ht : 1 ≤ train_length) (hb : 1 ≤ batch_size) :
    flower_train_batches_per_epoch train_length batch_size
        = some ((train_length + batch_size - 1) / batch_size) ∧
      1 ≤ (train_length + batch_size - 1) / batch_size ∧
      flower_train_batch_check ((train_length + batch_size - 1) / batch_size) = none := by
  have hbpos : 0 < batch_size := hb
  have hone : 1 ≤ (train_length + batch_size - 1) / batch_size := by
    rw [Nat.le_div_iff_mul_le hbpos]
    omega
  refine ⟨?_, hone, ?_⟩
  · unfold flower_train_batches_per_epoch
    rw [if_neg (by omega)]
    simp only
    congr 1
    have hdm := Nat.div_add_mod train_length batch_size
    have hrlt : train_length % batch_size < batch_size := Nat.mod_lt _ hbpos
    have hqc : train_length / batch_size * batch_size
        = batch_size * (train_length / batch_size) := Nat.mul_comm _ _
    rcases Nat.eq_zero_or_pos (train_length % batch_size) with hr | hr
    · rw [if_neg (by omega)]
      have hnum : train_length + batch_size - 1
          = (batch_size - 1) + batch_size * (train_length / batch_size) := by
        omega
      rw [hnum, Nat.add_mul_div_left _ _ hbpos,
        Nat.div_eq_of_lt (show batch_size - 1 < batch_size by omega)]
      omega
    · rw [if_pos (by omega)]
      have hdist : batch_size * (train_length / batch_size + 1)
          = batch_size * (train_length / batch_size) + batch_size := by
        ring
      have hnum : train_length + batch_size - 1
          = (train_length % batch_size - 1) + batch_size * (train_length / batch_size + 1) := by
        omega
      rw [hnum, Nat.add_mul_div_left _ _ hbpos,
        Nat.div_eq_of_lt (show train_length % batch_size - 1 < batch_size by omega)]
      omega
  · unfold flower_train_batch_check
    rw [if_neg (by omega)]

/-- C8 counterexample: at `batch_size = 0` the derived quantity is the C
expression `train_length / 0` — undefined behaviour, modelled as `none` — so
the computation is not well-defined for every batch size. -/
theorem batches_per_epoch_zero_batch_counterexample :
    flower_train_batches_per_epoch 5 0 = none := rfl

/-- Witness for C8: five samples at batch size 2 give three batches per epoch
and no `WrongBatchSize` error. -/
theorem batches_per_epoch_spec_witness :
    flower_train_batches_per_epoch 5 2 = some 3 ∧ (1 : Nat) ≤ 3 ∧
      flower_train_batch_check 3 = none := by
  have h := batches_per_epoch_spec 5 2 (by norm_num) (by norm_num)
  exact ⟨h.1, by norm_num, h.2.2⟩

/-- C9: every loss kind above `LOSS_MAX` slips through both loss kernels with
`ERROR_NONE`: `loss_forward` only zeroes the loss buffer (so `loss[0] = 0`),
the following `loss_backward` returns the state unchanged, and the kind is
rejected only by the `flower_train` check that creates the loss record. -/
theorem invalid_loss_kind_masked (logq sqrtq : ℚ → ℚ) (st : LossState)
    (p e : List ℚ) (L : Nat) (hty : LOSS_MAX < st.type) :
    (loss_forward logq sqrtq st p e L).1 = ERROR_NONE ∧
      (loss_forward logq sqrtq st p e L).2.loss = some (List.replicate L 0) ∧
      loss_backward (loss_forward logq sqrtq st p e L).2 L
        = (ERROR_NONE, (loss_forward logq sqrtq st p e L).2) ∧
      flower_train_loss_check st.type = some ERROR_LOSS_WRONG_TYPE := by
  have h5 : 5 < st.type := hty
  have hne0 : ¬ st.type = LOSS_MEAN_SQUARED_ERROR := by
    show ¬ st.type = 0
    omega
  have hne1 : ¬ st.type = LOSS_MEAN_SQUARED_LOG_ERROR := by
    show ¬ st.type = 1
    omega
  have hne2 : ¬ st.type = LOSS_ROOT_MEAN_SQUARED_LOG_ERROR := by
    show ¬ st.type = 2
    omega
  have hne3 : ¬ st.type = LOSS_MEAN_ABS_ERROR := by
    show ¬ st.type = 3
    omega
  have hne4 : ¬ st.type = LOSS_BINARY_CROSSENTROPY := by
    show ¬ st.type = 4
    omega
  have hne5 : ¬ st.type = LOSS_CATEGORICAL_CROSSENTROPY := by
    show ¬ st.type = 5
    omega
  have hfwd : loss_forward logq sqrtq st p e L
      = (ERROR_NONE, { st with
          loss := some (List.replicate L 0)
          temp1 := some (st.temp1.getD (List.replicate L 0))
          temp2 := some (st.temp2.getD (List.replicate L 0)) }) := by
    unfold loss_forward
    rw [if_neg hne0, if_neg hne1, if_neg hne2, if_neg hne3, if_neg hne4, if_neg hne5]
  rw [hfwd]
  refine ⟨rfl, rfl, ?_, ?_⟩
  · unfold loss_backward
    simp only
    rw [if_neg hne0, if_neg hne1, if_neg hne2, if_neg hne3, if_neg hne4, if_neg hne5]
  · unfold flower_train_loss_check
    rw [if_pos hty]

/-- Witness for C9: loss kind 6 on one-element buffers. -/
theorem invalid_loss_kind_masked_witness :
    (loss_forward (fun q => q) (fun q => q)
        { type := 6, loss := none, temp1 := none, temp2 := none } [1 / 2] [1] 1).1
        = ERROR_NONE ∧
      (loss_forward (fun q => q) (fun q => q)
          { type := 6, loss := none, temp1 := none, temp2 := none } [1 / 2] [1] 1).2.loss
        = some (List.replicate 1 0) ∧
      loss_backward (loss_forward (fun q => q) (fun q => q)
          { type := 6, loss := none, temp1 := none, temp2 := none } [1 / 2] [1] 1).2 1
        = (ERROR_NONE, (loss_forward (fun q => q) (fun q => q)
            { type := 6, loss := none, temp1 := none, temp2 := none } [1 / 2] [1] 1).2) ∧
      flower_train_loss_check 6 = some ERROR_LOSS_WRONG_TYPE :=
  invalid_loss_kind_masked (fun q => q) (fun q => q)
    { type := 6, loss := none, temp1 := none, temp2 := none } [1 / 2] [1] 1 (by decide)

/-- C10 (evaluation at the failing input): in a flower with a single petal the
backward loop takes the last-petal branch first and passes
`petals[petal_i - 1]->output` with `petal_i = 0`, a negative petal index,
instead of the sample input the first petal should receive. -/
theorem flower_backward_single_petal_negative_index :
    flower_backward_left_source 1 0 = LeftOutputSrc.petalOutput (-1) ∧ (-1 : Int) < 0 := by
  decide

end PetalFlow
